import Mathlib

/-!
Shallow embedding of `boltkit/server/__init__.py` (neo4j-contrib/boltkit):
the cluster topology engine — machine specs, port/name allocation, the
machine readiness state machine, routing-table resolution and the
add/remove-node pool discipline — together with theorems settling the
frozen claims about it.
-/

namespace Boltkit

/-! ## Python dict model

Python `dict`s are insertion-ordered maps with unique keys.  We model them
as association lists: assignment (`d[k] = v`) updates the value in place at
the key's existing position, or appends a fresh key at the end;
`d.update(**u)` performs the assignments of `u` in iteration order. -/

abbrev Dict := List (String × String)

/-- Python `d[k] = v`: replace in place if the key exists, else append. -/
def dictSet : Dict → String → String → Dict
  | [], k, v => [(k, v)]
  | (k', v') :: rest, k, v =>
    if k' = k then (k, v) :: rest else (k', v') :: dictSet rest k v

/-- Python `d.get(k)` / `d[k]`: value at the first matching key. -/
def dictLookup (k : String) : Dict → Option String
  | [] => none
  | (k', v) :: rest => if k' = k then some v else dictLookup k rest

/-- Python `d.update(**u)`: assign every pair of `u` in order. -/
def dictUpdate (d : Dict) (u : Dict) : Dict :=
  u.foldl (fun acc p => dictSet acc p.1 p.2) d

theorem dictLookup_dictSet_self (d : Dict) (k v : String) :
    dictLookup k (dictSet d k v) = some v := by
  induction d with
  | nil => simp [dictSet, dictLookup]
  | cons p rest ih =>
    by_cases h : p.1 = k
    · simp [dictSet, dictLookup, h]
    · simp [dictSet, dictLookup, h, ih]

theorem dictLookup_dictSet_ne (d : Dict) (k k' v : String) (h : k' ≠ k) :
    dictLookup k (dictSet d k' v) = dictLookup k d := by
  induction d with
  | nil => simp [dictSet, dictLookup, h]
  | cons p rest ih =>
    by_cases hp : p.1 = k'
    · simp [dictSet, dictLookup, hp, h, fun hh => h (hp ▸ hh)]
    · by_cases hk : p.1 = k <;>
        simp [dictSet, dictLookup, hp, hk, ih, Ne.symm h]

theorem dictSet_mem_self (d : Dict) (k v : String) :
    (k, v) ∈ dictSet d k v := by
  induction d with
  | nil => simp [dictSet]
  | cons p rest ih =>
    by_cases h : p.1 = k <;> simp [dictSet, h, ih]

theorem dictSet_keys_eq (d : Dict) (k v : String) :
    (dictSet d k v).map Prod.fst =
      if k ∈ d.map Prod.fst then d.map Prod.fst else d.map Prod.fst ++ [k] := by
  induction d with
  | nil => simp [dictSet]
  | cons p rest ih =>
    by_cases h : p.1 = k
    · simp [dictSet, h]
    · simp only [dictSet, h, if_false, List.map_cons, ih]
      by_cases hm : k ∈ rest.map Prod.fst <;>
        simp [hm, List.mem_cons, Ne.symm h]

theorem dictUpdate_cons (d : Dict) (k v : String) (u : Dict) :
    dictUpdate d ((k, v) :: u) = dictUpdate (dictSet d k v) u := rfl

theorem dictLookup_dictUpdate_not_mem (d u : Dict) (k : String)
    (h : k ∉ u.map Prod.fst) :
    dictLookup k (dictUpdate d u) = dictLookup k d := by
  induction u generalizing d with
  | nil => rfl
  | cons p rest ih =>
    simp only [List.map_cons, List.mem_cons] at h
    push_neg at h
    rw [show (p :: rest : Dict) = (p.1, p.2) :: rest from rfl,
        dictUpdate_cons, ih _ h.2, dictLookup_dictSet_ne _ _ _ _ (fun hh => h.1 hh.symm)]

theorem dictLookup_dictUpdate_mem (d u : Dict) (k v : String)
    (hnd : (u.map Prod.fst).Nodup) (h : (k, v) ∈ u) :
    dictLookup k (dictUpdate d u) = some v := by
  induction u generalizing d with
  | nil => cases h
  | cons p rest ih =>
    simp only [List.map_cons, List.nodup_cons] at hnd
    rcases List.mem_cons.mp h with h | h
    · subst h
      rw [dictUpdate_cons, dictLookup_dictUpdate_not_mem _ _ _ hnd.1,
          dictLookup_dictSet_self]
    · rw [show (p :: rest : Dict) = (p.1, p.2) :: rest from rfl, dictUpdate_cons]
      exact ih _ hnd.2 h

theorem dictSet_keys_nodup (d : Dict) (k v : String)
    (h : (d.map Prod.fst).Nodup) : ((dictSet d k v).map Prod.fst).Nodup := by
  rw [dictSet_keys_eq]
  by_cases hm : k ∈ d.map Prod.fst
  · simpa [hm] using h
  · simp [hm, List.nodup_append, h]

/-! ## Addresses and machine specs

`Address` comes from `boltkit.addressing` (outside this file's source): a
normalized host / port pair.  `Address((address.host, address.port_number))`
in the source re-normalizes an address to exactly these two components, so
our record equality is the source's tuple equality. -/

structure Address where
  host : String
  port : Nat
deriving DecidableEq, Repr

/-- Which Python class a spec was built through (`Neo4jMachineSpec`,
`Neo4jCoreMachineSpec`, `Neo4jReplicaMachineSpec`); stands in for
`isinstance` checks. -/
inductive Role
  | standalone
  | core
  | replica
deriving DecidableEq, Repr

/-- Class-level base config of `Neo4jMachineSpec`. -/
def baseConfig : Dict :=
  [("dbms.backup.enabled", "false"),
   ("dbms.memory.heap.initial_size", "300m"),
   ("dbms.memory.heap.max_size", "500m"),
   ("dbms.memory.pagecache.size", "50m"),
   ("dbms.transaction.bookmark_ready_timeout", "5s")]

def advertisedAddressKey : String := "dbms.connector.bolt.advertised_address"

structure Neo4jMachineSpec where
  name : String
  service_name : String
  bolt_port : Nat
  http_port : Nat
  role : Role
  config : Dict
deriving DecidableEq, Repr

/-- Config assembly of `Neo4jMachineSpec.__init__`: copy the class base
config, force the bolt advertised address, then — if the caller config is
truthy (non-`None`, non-empty) — apply the caller's entries on top. -/
def mkSpecConfig (bolt_port : Nat) (config : Option Dict) : Dict :=
  let cfg := dictSet baseConfig advertisedAddressKey
    ("localhost:" ++ toString bolt_port)
  match config with
  | none => cfg
  | some c => if c.isEmpty then cfg else dictUpdate cfg c

def mkNeo4jMachineSpec (name service_name : String) (bolt_port http_port : Nat)
    (config : Option Dict) (role : Role) : Neo4jMachineSpec :=
  { name := name
    service_name := service_name
    bolt_port := bolt_port
    http_port := http_port
    role := role
    config := mkSpecConfig bolt_port config }

def Neo4jMachineSpec.fq_name (s : Neo4jMachineSpec) : String :=
  s.name ++ "." ++ s.service_name

def Neo4jMachineSpec.discovery_address (s : Neo4jMachineSpec) : String :=
  s.name ++ "." ++ s.service_name ++ ":5000"

def Neo4jMachineSpec.bolt_address (s : Neo4jMachineSpec) : Address :=
  ⟨"localhost", s.bolt_port⟩

/-- `Neo4jCoreMachineSpec.__init__` replaces a falsy caller config by a
fresh dict, stamps `dbms.mode = CORE` into it, and hands it to the base
constructor.  (`config or` the empty dict keeps the caller's object exactly
when it is truthy, i.e. non-empty — see `coreCtorCallerConfigAfter`.) -/
def coreCtorConfig (config : Option Dict) : Dict :=
  dictSet (config.getD []) "dbms.mode" "CORE"

def mkCoreSpec (name service_name : String) (bolt_port http_port : Nat)
    (config : Option Dict) : Neo4jMachineSpec :=
  mkNeo4jMachineSpec name service_name bolt_port http_port
    (some (coreCtorConfig config)) Role.core

/-- `Neo4jReplicaMachineSpec.__init__`, analogous with `READ_REPLICA`. -/
def replicaCtorConfig (config : Option Dict) : Dict :=
  dictSet (config.getD []) "dbms.mode" "READ_REPLICA"

def mkReplicaSpec (name service_name : String) (bolt_port http_port : Nat)
    (config : Option Dict) : Neo4jMachineSpec :=
  mkNeo4jMachineSpec name service_name bolt_port http_port
    (some (replicaCtorConfig config)) Role.replica

/-- The caller-supplied dict after `Neo4jCoreMachineSpec.__init__` ran on
it: a truthy (non-empty) dict is the very object mutated by the
`dbms.mode = CORE` assignment; a falsy (empty) one is replaced by a fresh
dict by the `config or` default and left untouched. -/
def coreCtorCallerConfigAfter (config : Dict) : Dict :=
  if config.isEmpty then config else dictSet config "dbms.mode" "CORE"

def replicaCtorCallerConfigAfter (config : Dict) : Dict :=
  if config.isEmpty then config else dictSet config "dbms.mode" "READ_REPLICA"

/-! ## Machines and the readiness state machine

A `Neo4jMachine` binds a spec to a container; for the claims below only the
spec binding matters (image, auth and the container handle live in the
container runtime, an external collaborator). -/

structure Neo4jMachine where
  spec : Neo4jMachineSpec
deriving DecidableEq, Repr

/-- Readiness is the Python `ready` attribute: 0 unknown, 1 ready,
-1 failed. -/
def readyUnknown : Int := 0

/-- `Neo4jMachine.await_started`, as a function of the observations it
makes: the container status after the first reload, whether the liveness
probe succeeds, the `State.Status` read after a probe failure, and the
prior value of `ready` (class default 0).  Returns the new `ready` value.
The source sets `ready = 1` on probe success and `ready = -1` when the
probe fails and the container has exited; in every other branch it only
logs and leaves `ready` untouched. -/
def awaitStarted (status : String) (probeSucceeds : Bool)
    (statusAfterProbeFailure : String) (ready : Int) : Int :=
  if status = "running" then
    if probeSucceeds then 1
    else if statusAfterProbeFailure = "exited" then -1
    else ready
  else ready

/-! ## Service state and routing-table resolution

`Neo4jService` keeps `machines`, an insertion-ordered mapping from spec to
machine (value `none` meaning "slot reserved, not yet provisioned"), and
the cached routing state `_routers` / `_readers` / `_writers` / `_ttl`,
all `None` until the first successful resolution.  The cached lists hold
the results of `_get_machine_by_address`, which can itself be `None`, so
their element type is `Option Neo4jMachine`. -/

structure ServiceState where
  machines : List (Neo4jMachineSpec × Option Neo4jMachine)
  routersCache : Option (List (Option Neo4jMachine))
  readersCache : Option (List (Option Neo4jMachine))
  writersCache : Option (List (Option Neo4jMachine))
  ttlCache : Option Nat
deriving DecidableEq, Repr

/-- `Neo4jService._get_machine_by_address`: re-normalize the address, scan
the machine mapping in order, and `return machine` on the first spec whose
bolt address equals it; falling off the loop returns `None`.  Since the
matching entry's value may itself be `None` (a reserved slot), both cases
flatten to `none`. -/
def getMachineByAddress (s : ServiceState) (a : Address) :
    Option Neo4jMachine :=
  (s.machines.find? (fun p => p.1.bolt_address = ⟨a.host, a.port⟩)).bind
    (fun p => p.2)

/-- Python truthiness test `if self._routers:` — `None` and the empty list
are both falsy. -/
def ServiceState.routers (s : ServiceState) : List (Option Neo4jMachine) :=
  match s.routersCache with
  | some (m :: rest) => m :: rest
  | _ => s.machines.map (fun p => p.2)

/-- `Neo4jService.readers` evaluates `list(self._readers)`; when the cache
is still `None` this raises `TypeError` (`NoneType` is not iterable),
modelled as the error case. -/
def ServiceState.readers (s : ServiceState) :
    Except String (List (Option Neo4jMachine)) :=
  match s.readersCache with
  | some l => Except.ok l
  | none => Except.error "TypeError: NoneType object is not iterable"

def ServiceState.writers (s : ServiceState) :
    Except String (List (Option Neo4jMachine)) :=
  match s.writersCache with
  | some l => Except.ok l
  | none => Except.error "TypeError: NoneType object is not iterable"

/-- `Neo4jClusterService.cores`: values of the entries whose spec is a core
spec. -/
def ServiceState.cores (s : ServiceState) : List (Option Neo4jMachine) :=
  (s.machines.filter (fun p => p.1.role = Role.core)).map (fun p => p.2)

/-- `Neo4jClusterService.routers` override: always `list(self.cores)`,
never consulting the cache. -/
def ServiceState.clusterRouters (s : ServiceState) :
    List (Option Neo4jMachine) :=
  s.cores

/-- One record of the routing-table query result: a TTL and the role
entries, each a role tag with its (already parsed) addresses.
`Address.parse` lives in `boltkit.addressing`, outside this source file. -/
structure RoutingRecord where
  ttl : Nat
  server_lists : List (String × List Address)
deriving DecidableEq, Repr

structure RoleTables where
  routeAddrs : List Address
  readAddrs : List Address
  writeAddrs : List Address
deriving DecidableEq, Repr

/-- The role-dispatch loop of `_update_routing_info`: each `ROUTE` /
`READ` / `WRITE` entry overwrites the corresponding list (last entry of a
role wins); other role tags are ignored. -/
def collectRoles (lists : List (String × List Address)) : RoleTables :=
  lists.foldl
    (fun acc e =>
      if e.1 = "ROUTE" then { acc with routeAddrs := e.2 }
      else if e.1 = "READ" then { acc with readAddrs := e.2 }
      else if e.1 = "WRITE" then { acc with writeAddrs := e.2 }
      else acc)
    ⟨[], [], []⟩

/-- `Neo4jService._update_routing_info` after the records of the routing
query have been fetched: with no records it raises (`RuntimeError`,
"Unable to obtain routing information") before touching any cached state;
otherwise it destructures the first record, resolves every address of each
role through `_get_machine_by_address`, and overwrites the four caches.
Returns the new state and the raised message, if any. -/
def updateRoutingInfo (s : ServiceState) (records : List RoutingRecord) :
    ServiceState × Option String :=
  match records with
  | [] => (s, some "Unable to obtain routing information")
  | r :: _ =>
    let t := collectRoles r.server_lists
    ({ s with
        routersCache := some (t.routeAddrs.map (getMachineByAddress s))
        readersCache := some (t.readAddrs.map (getMachineByAddress s))
        writersCache := some (t.writeAddrs.map (getMachineByAddress s))
        ttlCache := some r.ttl },
     none)

/-! ## Port and name allocation (`Neo4jClusterService.__init__`)

Class constants: `min_cores = 3`, `max_cores = 7`, `min_replicas = 0`,
`max_replicas = 10`, default ports 17601 (bolt) / 17401 (http).  We keep
the core/replica ceilings as parameters where the claims quantify over
them; the class fixes them to 7 and 10. -/

def minCores : Nat := 3
def maxCores : Nat := 7
def minReplicas : Nat := 0
def maxReplicas : Nat := 10
def defaultClusterBoltPort : Nat := 17601
def defaultClusterHttpPort : Nat := 17401

/-- `_port_range(base_port, count)` is `range(base_port, base_port + count)`. -/
def portRange (base_port count : Nat) : List Nat :=
  List.range' base_port count

/-- Python `ceil(n / 10) * 10` for a natural `n` (float division is exact
here): the next multiple of 10 at or above `n`. -/
def ceilTen (n : Nat) : Nat :=
  ((n + 9) / 10) * 10

/-- Start of the replica port range:
`ceil(core_port_range.stop / 10) * 10` with `stop = base + max_cores`. -/
def replicaPortBase (base maxCores' : Nat) : Nat :=
  ceilTen (base + maxCores')

/-- Name of core slot `i`: `chr(97 + i)`, a one-character string. -/
def coreSlotName (i : Nat) : String :=
  String.singleton (Char.ofNat (97 + i))

/-- Name of replica slot `i`: `chr(48 + i)`. -/
def replicaSlotName (i : Nat) : String :=
  String.singleton (Char.ofNat (48 + i))

/-- Config passed to each core spec by `Neo4jClusterService.__init__`: a
fresh copy of the caller config plus the two cluster-formation-size
settings (numeric values rendered as strings). -/
def clusterCoreConfigArg (n_cores : Nat) (config : Option Dict) : Dict :=
  dictUpdate (config.getD [])
    [("causal_clustering.minimum_core_cluster_size_at_formation",
        toString n_cores),
     ("causal_clustering.minimum_core_cluster_size_at_runtime",
        toString minCores)]

/-- The free core spec pool generated up front: slot `i` gets name
`chr(97+i)` and ports `base + i` from the two core port ranges. -/
def freeCoreSpecs (service_name : String) (boltBase httpBase : Nat)
    (maxCores' n_cores : Nat) (config : Option Dict) :
    List Neo4jMachineSpec :=
  (List.range maxCores').map (fun i =>
    mkCoreSpec (coreSlotName i) service_name (boltBase + i) (httpBase + i)
      (some (clusterCoreConfigArg n_cores config)))

/-- The free replica spec pool: slot `i` gets name `chr(48+i)` and ports
`replicaPortBase + i`. -/
def freeReplicaSpecs (service_name : String) (boltBase httpBase : Nat)
    (maxCores' maxReplicas' : Nat) (config : Option Dict) :
    List Neo4jMachineSpec :=
  (List.range maxReplicas').map (fun i =>
    mkReplicaSpec (replicaSlotName i) service_name
      (replicaPortBase boltBase maxCores' + i)
      (replicaPortBase httpBase maxCores' + i) config)

/-- All specs ever generated for one cluster. -/
def allClusterSpecs (service_name : String) (boltBase httpBase : Nat)
    (maxCores' maxReplicas' n_cores : Nat) (config : Option Dict) :
    List Neo4jMachineSpec :=
  freeCoreSpecs service_name boltBase httpBase maxCores' n_cores config ++
    freeReplicaSpecs service_name boltBase httpBase maxCores' maxReplicas'
      config

/-! ## The service factory (`Neo4jService.__new__`) -/

inductive ServiceKind
  | standalone
  | cluster
deriving DecidableEq, Repr

/-- Python truthiness of the optional integer `n_cores`. -/
def pyTruthyNat : Option Nat → Bool
  | none => false
  | some n => n ≠ 0

/-- Python `x or default` on an optional integer (0 is falsy). -/
def pyOrNat (x : Option Nat) (default : Nat) : Nat :=
  match x with
  | none => default
  | some n => if n = 0 then default else n

/-- `Neo4jService.__new__`: the cluster class if and only if `n_cores` is
truthy. -/
def serviceNew (n_cores : Option Nat) : ServiceKind :=
  if pyTruthyNat n_cores then ServiceKind.cluster else ServiceKind.standalone

/-- The single spec built by `Neo4jStandaloneService.__init__` (name "a",
default ports 7687 / 7474 via Python `or`). -/
def standaloneSpec (service_name : String) (bolt_port http_port : Option Nat)
    (config : Option Dict) : Neo4jMachineSpec :=
  mkNeo4jMachineSpec "a" service_name (pyOrNat bolt_port 7687)
    (pyOrNat http_port 7474) config Role.standalone

/-- The core-count validation of `Neo4jClusterService.__init__`, applied to
`n_cores or min_cores`. -/
def clusterValidateCores (n_cores : Option Nat) : Except String Nat :=
  let n := pyOrNat n_cores minCores
  if minCores ≤ n ∧ n ≤ maxCores then Except.ok n
  else Except.error "A cluster must have been 3 and 7 cores"

/-! ## Cluster mutation operations (`add-core` / `rm`)

Python spec objects define `__hash__` but not `__eq__`, so the `machines`
dict and the free pools track spec objects by identity, and
`_boot_machines` mutates a spec's config dict in place without changing
its identity.  We model the heap explicitly: specs are identified by a
`SpecId`, `specTable` gives each id's current value, and the pools and the
`machines` mapping hold ids.  Machines are likewise identified by the
counter that allocates them. -/

abbrev SpecId := Nat

structure ClusterState where
  specTable : SpecId → Neo4jMachineSpec
  machines : List (SpecId × Option Nat)
  freeCoreMachineSpecs : List SpecId
  freeReplicaMachineSpecs : List SpecId
  nextMachineId : Nat

/-- Dict assignment `self.machines[spec] = v` on the id-keyed mapping. -/
def idMapSet (d : List (SpecId × Option Nat)) (k : SpecId) (v : Option Nat) :
    List (SpecId × Option Nat) :=
  if d.any (fun p => p.1 = k) then
    d.map (fun p => if p.1 = k then (p.1, v) else p)
  else d ++ [(k, v)]

/-- Number of entries of `machines` held under a core spec — the length of
`Neo4jClusterService.cores` (whose comprehension keeps reserved `None`
slots). -/
def ClusterState.coresCount (c : ClusterState) : Nat :=
  (c.machines.filter (fun p => (c.specTable p.1).role = Role.core)).length

/-- Discovery addresses of all core specs currently in `machines`
(computed by `_boot_machines` before its loop). -/
def clusterDiscoveryAddresses (c : ClusterState) : List String :=
  (c.machines.filter (fun p => (c.specTable p.1).role = Role.core)).map
    (fun p => (c.specTable p.1).discovery_address)

def discoveryMembersKey : String :=
  "causal_clustering.initial_discovery_members"

/-- One iteration of the `_boot_machines` loop on a reserved slot: update
that spec's config in place with the combined discovery-member list, then
bind a freshly created machine to the slot. -/
def bootOne (members : String) (acc : ClusterState) (s : SpecId) :
    ClusterState :=
  let sp := acc.specTable s
  { acc with
      specTable := Function.update acc.specTable s
        { sp with config := dictSet sp.config discoveryMembersKey members }
      machines := acc.machines.map
        (fun p => if p.1 = s then (p.1, some acc.nextMachineId) else p)
      nextMachineId := acc.nextMachineId + 1 }

/-- `Neo4jClusterService._boot_machines`: compute the discovery-member
string once, then provision every reserved (`None`-valued) slot. -/
def bootMachines (c : ClusterState) : ClusterState :=
  let members := String.intercalate "," (clusterDiscoveryAddresses c)
  ((c.machines.filter (fun p => p.2 = none)).map (fun p => p.1)).foldl
    (bootOne members) c

/-- `Neo4jClusterService.console_add_core`, up to its external effects
(starting the new container and awaiting readiness): under the capacity
guard, pop the first free core spec, reserve its slot, boot, and report the
spec that was added.  `none` models both the capacity-message no-op and the
(unreachable under the pool invariant) `IndexError` of popping an empty
pool. -/
def consoleAddCore (c : ClusterState) : Option (ClusterState × SpecId) :=
  if c.coresCount < maxCores then
    match c.freeCoreMachineSpecs with
    | [] => none
    | s :: rest =>
      some
        (bootMachines
          { c with
              freeCoreMachineSpecs := rest
              machines := idMapSet c.machines s none },
         s)
  else none

/-- `Neo4jClusterService._stop_machine`: look the machine up (KeyError →
`none`), delete the entry, stop the container (external), and return the
spec to the pool matching its class. -/
def stopMachine (c : ClusterState) (s : SpecId) : Option ClusterState :=
  match c.machines.find? (fun p => p.1 = s) with
  | none => none
  | some _ =>
    some
      { c with
          machines := c.machines.filter (fun p => ¬ p.1 = s)
          freeCoreMachineSpecs :=
            if (c.specTable s).role = Role.core then
              c.freeCoreMachineSpecs ++ [s]
            else c.freeCoreMachineSpecs
          freeReplicaMachineSpecs :=
            if (c.specTable s).role = Role.replica then
              c.freeReplicaMachineSpecs ++ [s]
            else c.freeReplicaMachineSpecs }

/-- The combined mutation of claim C5: `addCore()` followed by
`removeMachine(spec)` on the very spec the add allocated. -/
def addCoreThenRemove (c : ClusterState) : Option ClusterState :=
  match consoleAddCore c with
  | some (c₁, s) => stopMachine c₁ s
  | none => none

/-! ## Auxiliary dict lemmas used by the claims -/

theorem dictLookup_eq_none_iff (k : String) (d : Dict) :
    dictLookup k d = none ↔ k ∉ d.map Prod.fst := by
  induction d with
  | nil => simp [dictLookup]
  | cons p rest ih =>
    by_cases h : p.1 = k
    · simp [dictLookup, h]
    · simp [dictLookup, h, ih, Ne.symm h]

theorem dictSet_isEmpty_false (d : Dict) (k v : String) :
    (dictSet d k v).isEmpty = false := by
  cases d with
  | nil => rfl
  | cons p rest =>
    simp only [dictSet]
    split <;> rfl

/-! ## Claim C4 — empty routing result -/

/-- C4 (confirmed): a routing resolution whose query returns zero result
rows fails with the "no routing information" condition
(`RuntimeError("Unable to obtain routing information")`) and leaves the
previously cached routing state — routers, readers, writers, ttl — exactly
unchanged: `updateRoutingInfo` returns the input state untouched together
with the raised message. -/
theorem claim4_empty_records_fails_and_preserves_cache (s : ServiceState) :
    updateRoutingInfo s [] = (s, some "Unable to obtain routing information") :=
  rfl

/-! ## Claim C3 — the readiness outcomes of `await_started` -/

/-- C3 (counterexample): with the container running, the liveness probe
failing, and the container *not* having exited, `await_started` does not
set readiness to Failed (-1) as the claim states — it only logs, leaving
the initial readiness 0 in place. -/
theorem claim3_counterexample :
    awaitStarted "running" false "running" 0 ≠ -1 := by decide

/-- C3 (corrected): for a machine whose container status is "running", a
successful probe sets readiness to Ready (1), and a probe failure with the
container found exited sets readiness to Failed (-1); but a probe failure
without an exit leaves readiness untouched (still Unknown = 0 for a fresh
machine) — the "did not become available within timeout" case is only
logged, not marked Failed. -/
theorem claim3_awaitStarted_outcomes (st : String) (r : Int) :
    awaitStarted "running" true st r = 1 ∧
    awaitStarted "running" false "exited" r = -1 ∧
    (st ≠ "exited" → awaitStarted "running" false st r = r) := by
  refine ⟨rfl, rfl, fun h => ?_⟩
  simp [awaitStarted, h]

/-- C3 (witness): the three branches at concrete observations, readiness
starting from the class default 0. -/
theorem claim3_witness :
    awaitStarted "running" true "running" 0 = 1 ∧
    awaitStarted "running" false "exited" 0 = -1 ∧
    awaitStarted "running" false "running" 0 = 0 :=
  ⟨(claim3_awaitStarted_outcomes "running" 0).1,
   (claim3_awaitStarted_outcomes "running" 0).2.1,
   (claim3_awaitStarted_outcomes "running" 0).2.2 (by decide)⟩

/-! ## Claim C6 — replica port range -/

/-- C6 (confirmed): for every base port and every core/replica ceiling, the
replica port range starts at the next multiple of 10 at or above
`base + max_cores` — the value `ceil((base + max_cores) / 10) * 10` the
source computes — and spans `max_replicas` consecutive ports, so it never
overlaps the core port range `[base, base + max_cores)`. -/
theorem claim6_replica_range_starts_at_next_ten_no_overlap
    (base mc mr : Nat) :
    10 ∣ replicaPortBase base mc ∧
    base + mc ≤ replicaPortBase base mc ∧
    replicaPortBase base mc < base + mc + 10 ∧
    replicaPortBase base mc = ((base + mc + 9) / 10) * 10 ∧
    (portRange (replicaPortBase base mc) mr).length = mr ∧
    ∀ p, p ∈ portRange base mc → p ∉ portRange (replicaPortBase base mc) mr := by
  have hdm := Nat.div_add_mod (base + mc + 9) 10
  have hlt : (base + mc + 9) % 10 < 10 := Nat.mod_lt _ (by norm_num)
  have hge : base + mc ≤ replicaPortBase base mc := by
    unfold replicaPortBase ceilTen; omega
  refine ⟨dvd_mul_left 10 _, hge, ?_, rfl, ?_, ?_⟩
  · unfold replicaPortBase ceilTen; omega
  · simp [portRange]
  · intro p hp hq
    rw [portRange, List.mem_range'_1] at hp hq
    omega

/-- C6 (witness): at the default cluster bolt base 17601 with the class
ceilings 7 and 10, the replica range starts at 17610 and the top core port
17607 is not in it. -/
theorem claim6_witness :
    10 ∣ replicaPortBase 17601 7 ∧
    17601 + 7 ≤ replicaPortBase 17601 7 ∧
    17607 ∉ portRange (replicaPortBase 17601 7) 10 :=
  ⟨(claim6_replica_range_starts_at_next_ten_no_overlap 17601 7 10).1,
   (claim6_replica_range_starts_at_next_ten_no_overlap 17601 7 10).2.1,
   (claim6_replica_range_starts_at_next_ten_no_overlap 17601 7 10).2.2.2.2.2
     17607 (by decide)⟩

/-! ## Claim C9 — constructor mutation of the caller's config dict -/

/-- C9 (counterexample): a non-`None` but *empty* caller config dict is
falsy, so `config or` the empty-dict default substitutes a fresh dict and
the caller's own dict is left completely unchanged by Core and Replica
construction — contradicting the claim that every non-`None` caller dict
is mutated. -/
theorem claim9_counterexample :
    coreCtorCallerConfigAfter [] = ([] : Dict) ∧
    replicaCtorCallerConfigAfter [] = ([] : Dict) :=
  ⟨rfl, rfl⟩

/-- C9 (corrected): a *truthy* (non-empty) caller-supplied config dict is
mutated in place by Core/Replica construction — `dbms.mode` is stamped
into the caller's own object before the base constructor copies it — so
whenever the caller's dict did not already carry that exact mode entry it
is genuinely changed; an empty caller dict, in contrast, is replaced by a
fresh dict and left untouched. -/
theorem claim9_nonempty_caller_config_mutated (cfg : Dict) (hne : cfg ≠ []) :
    dictLookup "dbms.mode" (coreCtorCallerConfigAfter cfg) = some "CORE" ∧
    dictLookup "dbms.mode" (replicaCtorCallerConfigAfter cfg) =
      some "READ_REPLICA" ∧
    (dictLookup "dbms.mode" cfg ≠ some "CORE" →
      coreCtorCallerConfigAfter cfg ≠ cfg) ∧
    (dictLookup "dbms.mode" cfg ≠ some "READ_REPLICA" →
      replicaCtorCallerConfigAfter cfg ≠ cfg) := by
  have hempty : cfg.isEmpty = false := by
    cases cfg with
    | nil => exact absurd rfl hne
    | cons p rest => rfl
  have hc : coreCtorCallerConfigAfter cfg = dictSet cfg "dbms.mode" "CORE" := by
    simp [coreCtorCallerConfigAfter, hempty]
  have hr : replicaCtorCallerConfigAfter cfg =
      dictSet cfg "dbms.mode" "READ_REPLICA" := by
    simp [replicaCtorCallerConfigAfter, hempty]
  refine ⟨by rw [hc]; exact dictLookup_dictSet_self _ _ _,
          by rw [hr]; exact dictLookup_dictSet_self _ _ _, ?_, ?_⟩
  · intro hmode heq
    apply hmode
    have h1 := dictLookup_dictSet_self cfg "dbms.mode" "CORE"
    rw [← hc, heq] at h1
    exact h1
  · intro hmode heq
    apply hmode
    have h1 := dictLookup_dictSet_self cfg "dbms.mode" "READ_REPLICA"
    rw [← hr, heq] at h1
    exact h1

/-- C9 (witness): a one-entry caller dict is mutated — it gains the
`dbms.mode` entry and is no longer equal to its old value. -/
theorem claim9_witness :
    dictLookup "dbms.mode"
        (coreCtorCallerConfigAfter [("dbms.backup.enabled", "true")]) =
      some "CORE" ∧
    coreCtorCallerConfigAfter [("dbms.backup.enabled", "true")] ≠
      [("dbms.backup.enabled", "true")] := by
  have h := claim9_nonempty_caller_config_mutated
    [("dbms.backup.enabled", "true")] (by decide)
  exact ⟨h.1, h.2.2.1 (by decide)⟩

/-! ## Claim C10 — factory selection by core-count truthiness -/

/-- C10 (confirmed): `Neo4jService.__new__` selects the cluster variant if
and only if the requested `n_cores` is truthy; `None` and 0 both yield the
standalone variant, whose single machine spec is named "a", and the
cluster path — where the `[min_cores, max_cores]` range check lives — is
only ever reached with a non-zero, non-`None` core count. -/
theorem claim10_factory_truthy_core_count (n : Option Nat) :
    (serviceNew n = ServiceKind.cluster ↔ pyTruthyNat n = true) ∧
    serviceNew none = ServiceKind.standalone ∧
    serviceNew (some 0) = ServiceKind.standalone ∧
    (∀ sn bp hp cfg, (standaloneSpec sn bp hp cfg).name = "a") ∧
    (serviceNew n = ServiceKind.cluster → ∃ k, n = some k ∧ k ≠ 0) := by
  refine ⟨⟨fun h => ?_, fun h => by simp [serviceNew, h]⟩, rfl, rfl,
    fun sn bp hp cfg => rfl, fun h => ?_⟩
  · by_cases hb : pyTruthyNat n = true
    · exact hb
    · simp [serviceNew, hb] at h
  · match n with
    | none => simp [serviceNew, pyTruthyNat] at h
    | some k =>
      refine ⟨k, rfl, fun hk => ?_⟩
      subst hk
      simp [serviceNew, pyTruthyNat] at h

/-- C10 (witness): a requested core count of 3 selects the cluster class
and a core count of 0 selects the standalone class. -/
theorem claim10_witness :
    serviceNew (some 3) = ServiceKind.cluster ∧
    serviceNew (some 0) = ServiceKind.standalone :=
  ⟨(claim10_factory_truthy_core_count (some 3)).1.mpr (by decide),
   (claim10_factory_truthy_core_count (some 0)).2.2.1⟩

/-! ## Claim C8 — config merge in spec construction -/

/-- C8 (counterexample): the advertised address is *not* always forced to
`localhost:<boltPort>` — it is assigned before the caller's overrides are
merged, so a caller override of that very key wins, exactly as every other
caller entry does. -/
theorem claim8_counterexample :
    dictLookup advertisedAddressKey
        (mkSpecConfig 7687 (some [(advertisedAddressKey, "example.com:9999")])) =
      some "example.com:9999" ∧
    dictLookup advertisedAddressKey
        (mkSpecConfig 7687 (some [(advertisedAddressKey, "example.com:9999")])) ≠
      some ("localhost:" ++ toString 7687) := by
  constructor
  · rfl
  · decide

/-- C8 (corrected): a spec's config is the base config merged with the
caller's override mapping, caller entries winning on *every* key collision
— including the bolt advertised-address key, which is assigned the default
`localhost:<boltPort>` before the merge and therefore holds exactly when
the caller does not override it; keys touched by neither keep their base
value.  Core and Replica variants always carry
`dbms.mode = CORE` / `READ_REPLICA`, since the mode is stamped into the
override mapping itself. -/
theorem claim8_spec_config_merge (bolt : Nat) (cfg : Dict)
    (hnd : (cfg.map Prod.fst).Nodup) :
    (∀ k v, (k, v) ∈ cfg →
      dictLookup k (mkSpecConfig bolt (some cfg)) = some v) ∧
    (dictLookup advertisedAddressKey cfg = none →
      dictLookup advertisedAddressKey (mkSpecConfig bolt (some cfg)) =
        some ("localhost:" ++ toString bolt)) ∧
    (∀ k, k ∉ cfg.map Prod.fst → k ≠ advertisedAddressKey →
      dictLookup k (mkSpecConfig bolt (some cfg)) = dictLookup k baseConfig) ∧
    (∀ nm sn bp hp c, ((c.getD [] : Dict).map Prod.fst).Nodup →
      dictLookup "dbms.mode" (mkCoreSpec nm sn bp hp c).config =
        some "CORE") ∧
    (∀ nm sn bp hp c, ((c.getD [] : Dict).map Prod.fst).Nodup →
      dictLookup "dbms.mode" (mkReplicaSpec nm sn bp hp c).config =
        some "READ_REPLICA") := by
  have hbase :
      mkSpecConfig bolt (some cfg) =
        if cfg.isEmpty then
          dictSet baseConfig advertisedAddressKey
            ("localhost:" ++ toString bolt)
        else
          dictUpdate
            (dictSet baseConfig advertisedAddressKey
              ("localhost:" ++ toString bolt)) cfg := rfl
  refine ⟨?_, ?_, ?_, ?_, ?_⟩
  · intro k v hkv
    have hne : ¬ (cfg.isEmpty = true) := by
      cases cfg with
      | nil => cases hkv
      | cons p rest => simp
    rw [hbase, if_neg hne]
    exact dictLookup_dictUpdate_mem _ _ _ _ hnd hkv
  · intro hnone
    have hmem : advertisedAddressKey ∉ cfg.map Prod.fst :=
      (dictLookup_eq_none_iff _ _).mp hnone
    rw [hbase]
    by_cases hne : cfg.isEmpty
    · rw [if_pos hne]
      exact dictLookup_dictSet_self _ _ _
    · rw [if_neg hne, dictLookup_dictUpdate_not_mem _ _ _ hmem]
      exact dictLookup_dictSet_self _ _ _
  · intro k hk hkadv
    rw [hbase]
    by_cases hne : cfg.isEmpty
    · rw [if_pos hne]
      exact dictLookup_dictSet_ne _ _ _ _ (Ne.symm hkadv)
    · rw [if_neg hne, dictLookup_dictUpdate_not_mem _ _ _ hk]
      exact dictLookup_dictSet_ne _ _ _ _ (Ne.symm hkadv)
  · intro nm sn bp hp c hcnd
    have h1 : (mkCoreSpec nm sn bp hp c).config =
        dictUpdate
          (dictSet baseConfig advertisedAddressKey
            ("localhost:" ++ toString bp))
          (dictSet (c.getD []) "dbms.mode" "CORE") := by
      simp [mkCoreSpec, mkNeo4jMachineSpec, mkSpecConfig, coreCtorConfig,
        dictSet_isEmpty_false]
    rw [h1]
    exact dictLookup_dictUpdate_mem _ _ _ _
      (dictSet_keys_nodup _ _ _ hcnd) (dictSet_mem_self _ _ _)
  · intro nm sn bp hp c hcnd
    have h1 : (mkReplicaSpec nm sn bp hp c).config =
        dictUpdate
          (dictSet baseConfig advertisedAddressKey
            ("localhost:" ++ toString bp))
          (dictSet (c.getD []) "dbms.mode" "READ_REPLICA") := by
      simp [mkReplicaSpec, mkNeo4jMachineSpec, mkSpecConfig, replicaCtorConfig,
        dictSet_isEmpty_false]
    rw [h1]
    exact dictLookup_dictUpdate_mem _ _ _ _
      (dictSet_keys_nodup _ _ _ hcnd) (dictSet_mem_self _ _ _)

/-- C8 (witness): a caller override of the heap max wins, an untouched
caller leaves the advertised address at `localhost:7687`, untouched base
keys survive, and the Core variant carries `dbms.mode = CORE`. -/
theorem claim8_witness :
    dictLookup "dbms.memory.heap.max_size"
        (mkSpecConfig 7687 (some [("dbms.memory.heap.max_size", "1g")])) =
      some "1g" ∧
    dictLookup advertisedAddressKey
        (mkSpecConfig 7687 (some [("dbms.memory.heap.max_size", "1g")])) =
      some ("localhost:" ++ toString 7687) ∧
    dictLookup "dbms.backup.enabled"
        (mkSpecConfig 7687 (some [("dbms.memory.heap.max_size", "1g")])) =
      dictLookup "dbms.backup.enabled" baseConfig ∧
    dictLookup "dbms.mode" (mkCoreSpec "a" "t" 17601 17401 none).config =
      some "CORE" := by
  have h := claim8_spec_config_merge 7687
    [("dbms.memory.heap.max_size", "1g")] (by decide)
  exact ⟨h.1 _ _ (by decide), h.2.1 (by decide),
    h.2.2.1 _ (by decide) (by decide), h.2.2.2.1 "a" "t" 17601 17401 none
      (by decide)⟩

/-! ## Claims C1 / C2 — routing resolution and the cached-role properties

Concrete example fixtures shared by the two claims' counterexamples and
witnesses: one tracked machine listening on bolt port 7687, no routing
resolution performed yet. -/

def exSpec : Neo4jMachineSpec :=
  mkNeo4jMachineSpec "a" "t" 7687 7474 none Role.standalone

def exMachine : Neo4jMachine := ⟨exSpec⟩

def exServiceState : ServiceState :=
  { machines := [(exSpec, some exMachine)]
    routersCache := none
    readersCache := none
    writersCache := none
    ttlCache := none }

/-- A synthetic routing response: one `ROUTE` entry with two addresses
(one matching the tracked machine, one not), one `WRITE` entry with the
matching address, one `READ` entry with the non-matching address. -/
def exRoutingRecord : RoutingRecord :=
  ⟨300,
   [("ROUTE", [⟨"localhost", 7687⟩, ⟨"localhost", 9999⟩]),
    ("WRITE", [⟨"localhost", 7687⟩]),
    ("READ", [⟨"localhost", 9999⟩])]⟩

/-- C2 (counterexample): on a started topology on which `resolveRouting()`
has never been called, reading the `readers` property evaluates
`list(None)` and raises `TypeError` — it is not an empty list as the claim
states. -/
theorem claim2_counterexample :
    exServiceState.readers ≠ Except.ok [] := by
  simp [ServiceState.readers, exServiceState]

/-- C2 (corrected): before any routing resolution the `routers` property
falls back to the list of all tracked machines (and the cluster override
returns all core machines), exactly as claimed; but the `readers` and
`writers` properties do not return empty lists — iterating the absent
(`None`) caches raises `TypeError`. -/
theorem claim2_routers_fallback_readers_writers_raise (s : ServiceState)
    (hro : s.routersCache = none) (hrd : s.readersCache = none)
    (hwr : s.writersCache = none) :
    s.routers = s.machines.map (fun p => p.2) ∧
    s.clusterRouters =
      (s.machines.filter (fun p => p.1.role = Role.core)).map
        (fun p => p.2) ∧
    s.readers = Except.error "TypeError: NoneType object is not iterable" ∧
    s.writers = Except.error "TypeError: NoneType object is not iterable" := by
  refine ⟨?_, rfl, ?_, ?_⟩
  · rw [ServiceState.routers, hro]
  · rw [ServiceState.readers, hrd]
  · rw [ServiceState.writers, hwr]

/-- C2 (witness): on the example never-resolved topology, `routers` is the
full machine list and `readers` raises. -/
theorem claim2_witness :
    exServiceState.routers = exServiceState.machines.map (fun p => p.2) ∧
    exServiceState.readers =
      Except.error "TypeError: NoneType object is not iterable" :=
  ⟨(claim2_routers_fallback_readers_writers_raise exServiceState
      rfl rfl rfl).1,
   (claim2_routers_fallback_readers_writers_raise exServiceState
      rfl rfl rfl).2.2.1⟩

/-- C1 (counterexample): resolving the synthetic response against the
example topology leaves the unmatched address `localhost:9999` as a `None`
placeholder *inside* the cached lists — the routers cache has two entries,
the second absent, and the readers cache is `[None]` — contradicting the
claim that unmatched addresses are dropped and the caches never hold
placeholder entries. -/
theorem claim1_counterexample :
    (updateRoutingInfo exServiceState [exRoutingRecord]).1.routersCache =
      some [some exMachine, none] ∧
    none ∈
      ((updateRoutingInfo exServiceState [exRoutingRecord]).1.routersCache.getD
        []) ∧
    (updateRoutingInfo exServiceState [exRoutingRecord]).1.readersCache =
      some [none] := by
  refine ⟨?_, ?_, ?_⟩ <;> decide

/-- C1 (corrected): routing resolution resolves each address of each role
by exact host-and-port comparison with the tracked machines' bolt
addresses — an address matches a machine exactly when some tracked entry
has that bolt address — but an address with no matching tracked machine is
*not* dropped: `_get_machine_by_address` yields `None` for it and the list
comprehensions keep that `None`, so the cached routers/readers/writers
lists carry one entry per returned address, with `None` placeholders for
unmatched addresses. -/
theorem claim1_resolution_exact_match_with_placeholders (s : ServiceState)
    (r : RoutingRecord) (rs : List RoutingRecord) :
    (updateRoutingInfo s (r :: rs)).2 = none ∧
    (updateRoutingInfo s (r :: rs)).1.routersCache =
      some ((collectRoles r.server_lists).routeAddrs.map
        (getMachineByAddress s)) ∧
    (updateRoutingInfo s (r :: rs)).1.readersCache =
      some ((collectRoles r.server_lists).readAddrs.map
        (getMachineByAddress s)) ∧
    (updateRoutingInfo s (r :: rs)).1.writersCache =
      some ((collectRoles r.server_lists).writeAddrs.map
        (getMachineByAddress s)) ∧
    (∀ a : Address,
      (∀ p ∈ s.machines, p.1.bolt_address ≠ (⟨a.host, a.port⟩ : Address)) →
      getMachineByAddress s a = none) ∧
    (∀ a m, getMachineByAddress s a = some m →
      ∃ p ∈ s.machines,
        p.1.bolt_address = (⟨a.host, a.port⟩ : Address) ∧ p.2 = some m) := by
  refine ⟨rfl, rfl, rfl, rfl, ?_, ?_⟩
  · intro a ha
    unfold getMachineByAddress
    rw [List.find?_eq_none.mpr]
    · rfl
    · intro p hp
      simpa using ha p hp
  · intro a m hm
    unfold getMachineByAddress at hm
    rcases Option.bind_eq_some.mp hm with ⟨p, hfind, hp2⟩
    refine ⟨p, List.mem_of_find?_eq_some hfind, ?_, hp2⟩
    have := List.find?_some hfind
    simpa using this

/-- C1 (witness): on the example topology, resolution succeeds, the
matching address resolves to the tracked machine and the unmatched address
resolves to `None`. -/
theorem claim1_witness :
    (updateRoutingInfo exServiceState (exRoutingRecord :: [])).2 = none ∧
    getMachineByAddress exServiceState ⟨"localhost", 9999⟩ = none := by
  have h := claim1_resolution_exact_match_with_placeholders
    exServiceState exRoutingRecord []
  exact ⟨h.1, h.2.2.2.2.1 ⟨"localhost", 9999⟩ (by decide)⟩

/-! ## Claim C5 — add-core / remove restores the free pool -/

theorem bootOne_freeCore (m : String) (c : ClusterState) (s : SpecId) :
    (bootOne m c s).freeCoreMachineSpecs = c.freeCoreMachineSpecs := rfl

theorem bootOne_role (m : String) (c : ClusterState) (s x : SpecId) :
    ((bootOne m c s).specTable x).role = (c.specTable x).role := by
  unfold bootOne
  by_cases h : x = s
  · subst h
    simp [Function.update_same]
  · simp [Function.update_noteq h]

theorem bootOne_machine_keys (m : String) (c : ClusterState) (s : SpecId) :
    (bootOne m c s).machines.map Prod.fst = c.machines.map Prod.fst := by
  simp only [bootOne, List.map_map]
  congr 1
  funext p
  by_cases h : p.1 = s <;> simp [h]

theorem foldl_bootOne_freeCore (m : String) (l : List SpecId)
    (c : ClusterState) :
    (l.foldl (bootOne m) c).freeCoreMachineSpecs = c.freeCoreMachineSpecs := by
  induction l generalizing c with
  | nil => rfl
  | cons x xs ih => rw [List.foldl_cons, ih, bootOne_freeCore]

theorem foldl_bootOne_role (m : String) (l : List SpecId) (c : ClusterState)
    (x : SpecId) :
    (((l.foldl (bootOne m) c).specTable x)).role = (c.specTable x).role := by
  induction l generalizing c with
  | nil => rfl
  | cons y ys ih => rw [List.foldl_cons, ih, bootOne_role]

theorem foldl_bootOne_machine_keys (m : String) (l : List SpecId)
    (c : ClusterState) :
    (l.foldl (bootOne m) c).machines.map Prod.fst =
      c.machines.map Prod.fst := by
  induction l generalizing c with
  | nil => rfl
  | cons y ys ih => rw [List.foldl_cons, ih, bootOne_machine_keys]

theorem bootMachines_freeCore (c : ClusterState) :
    (bootMachines c).freeCoreMachineSpecs = c.freeCoreMachineSpecs :=
  foldl_bootOne_freeCore _ _ _

theorem bootMachines_role (c : ClusterState) (x : SpecId) :
    ((bootMachines c).specTable x).role = (c.specTable x).role :=
  foldl_bootOne_role _ _ _ _

theorem bootMachines_machine_keys (c : ClusterState) :
    (bootMachines c).machines.map Prod.fst = c.machines.map Prod.fst :=
  foldl_bootOne_machine_keys _ _ _

theorem idMapSet_key_mem (d : List (SpecId × Option Nat)) (k : SpecId)
    (v : Option Nat) : k ∈ (idMapSet d k v).map Prod.fst := by
  unfold idMapSet
  by_cases h : d.any (fun p => decide (p.1 = k))
  · rw [if_pos h]
    rcases List.any_eq_true.mp h with ⟨p, hp, hpk⟩
    have hpk' : p.1 = k := by simpa using hpk
    refine List.mem_map.mpr ⟨(p.1, v), ?_, hpk'⟩
    exact List.mem_map.mpr ⟨p, hp, by simp [hpk']⟩
  · rw [if_neg h]
    simp

/-- C5 (confirmed): on a cluster with room for another core and a
non-empty free core pool, `addCore()` pops the head spec of the pool and
hands exactly that spec back; `removeMachine` on it then appends it to the
pool again, so the pool ends as its old tail plus the popped spec — the
same size and the same member multiset as before the add, with no other
entry changed. -/
theorem claim5_add_then_remove_restores_free_core_pool
    (c : ClusterState) (s : SpecId) (rest : List SpecId)
    (hpool : c.freeCoreMachineSpecs = s :: rest)
    (hcap : c.coresCount < maxCores)
    (hrole : (c.specTable s).role = Role.core) :
    ((consoleAddCore c).map (fun p => p.2)) = some s ∧
    ((addCoreThenRemove c).map (fun st => st.freeCoreMachineSpecs)) =
      some (rest ++ [s]) ∧
    ((rest ++ [s] : List SpecId) : Multiset SpecId) =
      (c.freeCoreMachineSpecs : Multiset SpecId) ∧
    (rest ++ [s]).length = c.freeCoreMachineSpecs.length := by
  have hadd : consoleAddCore c =
      some
        (bootMachines
          { c with
              freeCoreMachineSpecs := rest
              machines := idMapSet c.machines s none },
         s) := by
    unfold consoleAddCore
    rw [if_pos hcap, hpool]
  set c₁ : ClusterState :=
    { c with
        freeCoreMachineSpecs := rest
        machines := idMapSet c.machines s none } with hc₁
  have hkey : s ∈ (bootMachines c₁).machines.map Prod.fst := by
    rw [bootMachines_machine_keys]
    exact idMapSet_key_mem _ _ _
  have hfind : ∃ q, (bootMachines c₁).machines.find?
      (fun p => decide (p.1 = s)) = some q := by
    rcases List.mem_map.mp hkey with ⟨q, hq, hq1⟩
    have : ((bootMachines c₁).machines.find?
        (fun p => decide (p.1 = s))).isSome := by
      rw [List.find?_isSome]
      exact ⟨q, hq, by simp [hq1]⟩
    exact Option.isSome_iff_exists.mp this
  rcases hfind with ⟨q, hq⟩
  have hrole₁ : ((bootMachines c₁).specTable s).role = Role.core := by
    rw [bootMachines_role]
    exact hrole
  have hstop : stopMachine (bootMachines c₁) s =
      some
        { bootMachines c₁ with
            machines :=
              (bootMachines c₁).machines.filter (fun p => ¬ p.1 = s)
            freeCoreMachineSpecs :=
              (bootMachines c₁).freeCoreMachineSpecs ++ [s]
            freeReplicaMachineSpecs :=
              (bootMachines c₁).freeReplicaMachineSpecs } := by
    unfold stopMachine
    rw [hq]
    have h2 : ¬ ((bootMachines c₁).specTable s).role = Role.replica := by
      rw [hrole₁]
      simp
    rw [if_pos hrole₁, if_neg h2]
  have hfree : (bootMachines c₁).freeCoreMachineSpecs = rest := by
    rw [bootMachines_freeCore]
  refine ⟨by rw [hadd]; rfl, ?_, ?_, ?_⟩
  · unfold addCoreThenRemove
    rw [hadd]
    simp only [hstop, Option.map_some]
    rw [hfree]
    rfl
  · rw [hpool]
    exact Multiset.coe_eq_coe.mpr (List.perm_append_singleton s rest)
  · rw [hpool]
    simp

/-- Example fixture for C5: one provisioned core machine, two specs left
in the free core pool, every spec id mapping to a core spec. -/
def exCoreSpec : Neo4jMachineSpec := mkCoreSpec "a" "t" 17601 17401 none

def exClusterState : ClusterState :=
  { specTable := fun _ => exCoreSpec
    machines := [(0, some 0)]
    freeCoreMachineSpecs := [1, 2]
    freeReplicaMachineSpecs := []
    nextMachineId := 1 }

/-- C5 (witness): on the example cluster, `addCore()` allocates spec 1 and
removing it hands the pool back as `[2, 1]` — the same members and size as
the original `[1, 2]`. -/
theorem claim5_witness :
    ((consoleAddCore exClusterState).map (fun p => p.2)) = some 1 ∧
    ((addCoreThenRemove exClusterState).map
        (fun st => st.freeCoreMachineSpecs)) = some ([2] ++ [1]) ∧
    (([2] ++ [1] : List SpecId) : Multiset SpecId) =
      (exClusterState.freeCoreMachineSpecs : Multiset SpecId) ∧
    ([2] ++ [1] : List SpecId).length =
      exClusterState.freeCoreMachineSpecs.length :=
  claim5_add_then_remove_restores_free_core_pool exClusterState 1 [2]
    rfl (by decide) rfl

/-! ## Claim C7 — no shared ports or names in a generated pool -/

theorem replicaPortBase_ge (base mc : Nat) :
    base + mc ≤ replicaPortBase base mc := by
  have hdm := Nat.div_add_mod (base + mc + 9) 10
  have hlt : (base + mc + 9) % 10 < 10 := Nat.mod_lt _ (by norm_num)
  unfold replicaPortBase ceilTen
  omega

theorem nodup_map_add_range (b n : Nat) :
    ((List.range n).map (fun i => b + i)).Nodup :=
  List.Nodup.map (fun i j h => by omega) (List.nodup_range n)

/-- Both port dimensions have the same shape: `count` core ports from the
base, then replica ports from the rounded-up base; the two blocks are
internally injective and mutually disjoint. -/
theorem ports_nodup (b mc mr : Nat) :
    ((List.range mc).map (fun i => b + i) ++
      (List.range mr).map (fun j => replicaPortBase b mc + j)).Nodup := by
  rw [List.nodup_append]
  refine ⟨nodup_map_add_range _ _, nodup_map_add_range _ _, ?_⟩
  intro a ha hb
  rcases List.mem_map.mp ha with ⟨i, hi, rfl⟩
  rcases List.mem_map.mp hb with ⟨j, hj, hEq⟩
  have h1 : b + mc ≤ replicaPortBase b mc := replicaPortBase_ge b mc
  have hi' := List.mem_range.mp hi
  omega

theorem string_append_right_cancel (a b t : String) (h : a ++ t = b ++ t) :
    a = b := by
  have hd := congrArg String.data h
  rw [String.data_append, String.data_append] at hd
  exact String.ext (List.append_cancel_right hd)

theorem fq_append_inj (a b sn : String) (h : a ++ "." ++ sn = b ++ "." ++ sn) :
    a = b :=
  string_append_right_cancel a b "."
    (string_append_right_cancel (a ++ ".") (b ++ ".") sn h)

theorem coreSlotName_inj (i j : Nat) (hi : i < 7) (hj : j < 7) :
    coreSlotName i = coreSlotName j → i = j := by
  interval_cases i <;> interval_cases j <;> decide

theorem replicaSlotName_inj (i j : Nat) (hi : i < 10) (hj : j < 10) :
    replicaSlotName i = replicaSlotName j → i = j := by
  interval_cases i <;> interval_cases j <;> decide

theorem coreSlotName_ne_replicaSlotName (i j : Nat) (hi : i < 7)
    (hj : j < 10) : coreSlotName i ≠ replicaSlotName j := by
  interval_cases i <;> interval_cases j <;> decide

theorem names_nodup (sn : String) (mc mr : Nat) (hmc : mc ≤ 7)
    (hmr : mr ≤ 10) :
    ((List.range mc).map (fun i => coreSlotName i ++ "." ++ sn) ++
      (List.range mr).map (fun j => replicaSlotName j ++ "." ++ sn)).Nodup := by
  rw [List.nodup_append]
  refine ⟨?_, ?_, ?_⟩
  · refine List.Nodup.map_on ?_ (List.nodup_range mc)
    intro i hi j hj hEq
    exact coreSlotName_inj i j (lt_of_lt_of_le (List.mem_range.mp hi) hmc)
      (lt_of_lt_of_le (List.mem_range.mp hj) hmc) (fq_append_inj _ _ _ hEq)
  · refine List.Nodup.map_on ?_ (List.nodup_range mr)
    intro i hi j hj hEq
    exact replicaSlotName_inj i j (lt_of_lt_of_le (List.mem_range.mp hi) hmr)
      (lt_of_lt_of_le (List.mem_range.mp hj) hmr) (fq_append_inj _ _ _ hEq)
  · intro a ha hb
    rcases List.mem_map.mp ha with ⟨i, hi, rfl⟩
    rcases List.mem_map.mp hb with ⟨j, hj, hEq⟩
    exact coreSlotName_ne_replicaSlotName i j
      (lt_of_lt_of_le (List.mem_range.mp hi) hmc)
      (lt_of_lt_of_le (List.mem_range.mp hj) hmr)
      ((fq_append_inj _ _ _ hEq).symm)

theorem allSpecs_map_bolt (sn : String) (bB hB mc mr nc : Nat)
    (cfg : Option Dict) :
    (allClusterSpecs sn bB hB mc mr nc cfg).map Neo4jMachineSpec.bolt_port =
      (List.range mc).map (fun i => bB + i) ++
        (List.range mr).map (fun j => replicaPortBase bB mc + j) := by
  simp only [allClusterSpecs, freeCoreSpecs, freeReplicaSpecs,
    List.map_append, List.map_map, mkCoreSpec, mkReplicaSpec,
    mkNeo4jMachineSpec]
  rfl

theorem allSpecs_map_http (sn : String) (bB hB mc mr nc : Nat)
    (cfg : Option Dict) :
    (allClusterSpecs sn bB hB mc mr nc cfg).map Neo4jMachineSpec.http_port =
      (List.range mc).map (fun i => hB + i) ++
        (List.range mr).map (fun j => replicaPortBase hB mc + j) := by
  simp only [allClusterSpecs, freeCoreSpecs, freeReplicaSpecs,
    List.map_append, List.map_map, mkCoreSpec, mkReplicaSpec,
    mkNeo4jMachineSpec]
  rfl

theorem allSpecs_map_fq (sn : String) (bB hB mc mr nc : Nat)
    (cfg : Option Dict) :
    (allClusterSpecs sn bB hB mc mr nc cfg).map Neo4jMachineSpec.fq_name =
      (List.range mc).map (fun i => coreSlotName i ++ "." ++ sn) ++
        (List.range mr).map (fun j => replicaSlotName j ++ "." ++ sn) := by
  simp only [allClusterSpecs, freeCoreSpecs, freeReplicaSpecs,
    List.map_append, List.map_map, mkCoreSpec, mkReplicaSpec,
    mkNeo4jMachineSpec]
  rfl

/-- C7 (confirmed): in a generated spec pool with core ceiling at most 7
and replica ceiling at most 10, no two of the generated specs share a bolt
port, no two share an http port, and no two share a fully-qualified name
(core slot `i` is named `chr(97+i)`, replica slot `i` is named
`chr(48+i)`). -/
theorem claim7_pool_no_shared_ports_or_names (sn : String)
    (bB hB nc : Nat) (cfg : Option Dict) (mc mr : Nat)
    (hmc : mc ≤ 7) (hmr : mr ≤ 10) :
    ((allClusterSpecs sn bB hB mc mr nc cfg).map
        Neo4jMachineSpec.bolt_port).Nodup ∧
    ((allClusterSpecs sn bB hB mc mr nc cfg).map
        Neo4jMachineSpec.http_port).Nodup ∧
    ((allClusterSpecs sn bB hB mc mr nc cfg).map
        Neo4jMachineSpec.fq_name).Nodup := by
  refine ⟨?_, ?_, ?_⟩
  · rw [allSpecs_map_bolt]
    exact ports_nodup bB mc mr
  · rw [allSpecs_map_http]
    exact ports_nodup hB mc mr
  · rw [allSpecs_map_fq]
    exact names_nodup sn mc mr hmc hmr

/-- C7 (witness): the full default pool — 7 cores from 17601/17401, 10
replicas from 17610/17410, service name chosen concretely — has pairwise
distinct bolt ports, http ports and fully-qualified names. -/
theorem claim7_witness :
    ((allClusterSpecs "svc" 17601 17401 7 10 3 none).map
        Neo4jMachineSpec.bolt_port).Nodup ∧
    ((allClusterSpecs "svc" 17601 17401 7 10 3 none).map
        Neo4jMachineSpec.http_port).Nodup ∧
    ((allClusterSpecs "svc" 17601 17401 7 10 3 none).map
        Neo4jMachineSpec.fq_name).Nodup :=
  claim7_pool_no_shared_ports_or_names "svc" 17601 17401 3 none 7 10
    (by decide) (by decide)

end Boltkit
